import Mathlib

/-!
Verification of the VBDiarization embedding-extraction pipeline
(examples/diarization.py, vbdiar/kaldi/python_mfcc_features_extraction.py)
against its specification.

Shallow embedding conventions:
* frame indices and times are natural numbers; times are in milliseconds;
* fallible code is modelled with Except;
* external collaborators (the MFCC library, sliding-window CMVN) enter as
  parameters through their numeric interface;
* library functions of the vbdiar package whose source is not available
  (segments.py conversions and segmenter, Utils.partition) are modelled from
  the specification text and marked as such in their doc comments.
-/

set_option maxRecDepth 40000

namespace VBDiar

/-- Modelled from the spec: vbdiar.features.segments.get_time_from_frames is
not in the available sources.  The spec fixes a 10 ms frame step; times are
in milliseconds, so a frame index f corresponds to time 10 * f. -/
def getTimeFromFrames (f : Nat) : Nat := 10 * f

/-- Modelled from the spec: vbdiar.features.segments.get_frames_from_time is
not in the available sources.  Inverse of the 10 ms frame-step conversion:
a time t in milliseconds corresponds to frame t / 10 (integer division). -/
def getFramesFromTime (t : Nat) : Nat := t / 10

/-- Result of the per-segment body of the loop in process_file
(examples/diarization.py, lines 123-131): the (start, end) time key stored
into features_dict, the adjusted frame range used to slice the feature
matrix, and whether the frame-alignment warning was emitted. -/
structure SegAdjust where
  key : Nat × Nat
  sliceStart : Nat
  sliceEnd : Nat
  warned : Bool
  deriving Repr, DecidableEq

/-- Embeds the body of the segment loop of process_file
(examples/diarization.py lines 124-131).  In the source:
  seg_start, seg_end = seg
  start, end = get_time_from_frames(seg_start), get_time_from_frames(seg_end)
  if start >= overlap:
      seg_start = get_frames_from_time(start - overlap)
  if seg_start > features.shape[0] - 1 or seg_end > features.shape[0] - 1:
      logger.warning(...)
      seg_end = features.shape[0]
  features_dict[(start, end)] = features[seg_start:seg_end]
For natural numbers, the Python comparison a > n - 1 over the integers is
a >= n, which we write n <= a. -/
def processSeg (overlap numFrames : Nat) (seg : Nat × Nat) : SegAdjust :=
  let segStart0 := seg.1
  let segEnd0 := seg.2
  let start := getTimeFromFrames segStart0
  let endT := getTimeFromFrames segEnd0
  let segStart1 := if overlap ≤ start then getFramesFromTime (start - overlap) else segStart0
  let warned := numFrames ≤ segStart1 ∨ numFrames ≤ segEnd0
  let segEnd1 := if numFrames ≤ segStart1 ∨ numFrames ≤ segEnd0 then numFrames else segEnd0
  { key := (start, endT), sliceStart := segStart1, sliceEnd := segEnd1,
    warned := decide warned }

/-- The feature rows actually sliced for a segment:
features[seg_start:seg_end] on a feature matrix given as a list of rows. -/
def segSlice {α : Type} (features : List α) (a : SegAdjust) : List α :=
  (features.drop a.sliceStart).take (a.sliceEnd - a.sliceStart)

/-- Run-length encoding of a voice-activity mask: consecutive equal booleans
are merged into (value, run length) pairs, in order. -/
def toRuns : List Bool → List (Bool × Nat)
  | [] => []
  | b :: rest =>
    match toRuns rest with
    | [] => [(b, 1)]
    | (b', n) :: rs => if b = b' then (b, n + 1) :: rs else (b, 1) :: (b', n) :: rs

/-- Fuel-driven absorption of short silence gaps: a silence run of length at
most tol lying between two speech runs is merged into one speech run.  The
fuel argument only bounds the recursion; absorbGaps supplies enough. -/
def absorbGapsAux (tol : Nat) : Nat → List (Bool × Nat) → List (Bool × Nat)
  | 0, l => l
  | _ + 1, [] => []
  | fuel + 1, (true, n1) :: (false, m) :: (true, n2) :: rest =>
    if m ≤ tol then absorbGapsAux tol fuel ((true, n1 + m + n2) :: rest)
    else (true, n1) :: (false, m) :: absorbGapsAux tol fuel ((true, n2) :: rest)
  | fuel + 1, r :: rest => r :: absorbGapsAux tol fuel rest

/-- Absorb tolerance-sized silence gaps between speech runs. -/
def absorbGaps (tol : Nat) (runs : List (Bool × Nat)) : List (Bool × Nat) :=
  absorbGapsAux tol runs.length runs

/-- Convert runs back to (start_frame, end_frame) pairs for the speech runs,
threading the absolute frame position. -/
def runsToSegs : Nat → List (Bool × Nat) → List (Nat × Nat)
  | _, [] => []
  | pos, (b, n) :: rest =>
    if b then (pos, pos + n) :: runsToSegs (pos + n) rest
    else runsToSegs (pos + n) rest

/-- Fuel-driven greedy subdivision of a segment into consecutive chunks of at
most maxFrames frames with no gap.  The fuel argument only bounds the
recursion; splitSeg supplies enough. -/
def splitSegAux (maxFrames : Nat) : Nat → Nat → Nat → List (Nat × Nat)
  | 0, s, e => [(s, e)]
  | fuel + 1, s, e =>
    if maxFrames = 0 ∨ e - s ≤ maxFrames then [(s, e)]
    else (s, s + maxFrames) :: splitSegAux maxFrames fuel (s + maxFrames) e

/-- Subdivide the segment (s, e) into consecutive chunks of at most maxFrames
frames, the last chunk taking the remainder. -/
def splitSeg (maxFrames s e : Nat) : List (Nat × Nat) :=
  splitSegAux maxFrames ((e - s) / max 1 maxFrames + 1) s e

/-- Modelled from the spec: vbdiar.features.segments.get_segments is not in
the available sources.  Per the Segmenter contract, it walks the
voice-activity mask merging contiguous speech frames into raw segments, a
run of non-speech frames of length at most tolerance between speech runs is
absorbed rather than causing a split, and any raw segment longer than
max_size (milliseconds, converted to frames) is subdivided into consecutive
sub-segments each at most max_size with no gap. -/
def getSegments (vad : List Bool) (maxSizeMs tolerance : Nat) : List (Nat × Nat) :=
  let maxFrames := getFramesFromTime maxSizeMs
  ((runsToSegs 0 (absorbGaps tolerance (toRuns vad))).map
    (fun p => splitSeg maxFrames p.1 p.2)).flatten

/-- The whole segment loop of process_file: the segmenter output mapped
through the per-segment adjustment. -/
def processFileSegs (vad : List Bool) (maxSizeMs tolerance overlap numFrames : Nat) :
    List SegAdjust :=
  (getSegments vad maxSizeMs tolerance).map (processSeg overlap numFrames)

/-- C6: round-trip of the frame/time conversions, as used by process_file. -/
theorem c6_frames_time_roundtrip (f : Nat) :
    getFramesFromTime (getTimeFromFrames f) = f := by
  simp [getFramesFromTime, getTimeFromFrames, Nat.mul_div_cancel_left]

/-- C10: the (start, end) time key recorded in features_dict is computed from
the segment's original frame boundaries and does not depend on the overlap
pull-back or on the end-frame clamping; those adjustments only change the
sliced frame range. -/
theorem c10_key_from_original_boundaries (overlap numFrames : Nat) (seg : Nat × Nat) :
    (processSeg overlap numFrames seg).key =
      (getTimeFromFrames seg.1, getTimeFromFrames seg.2) := by
  rfl

/-- C2: a segment whose end frame exceeds the number of available feature
rows has its slice end clamped to exactly that row count and the warning is
emitted; moreover the loop always produces one entry per segmenter segment,
so the mismatch is never fatal. -/
theorem c2_end_clamped_with_warning (vad : List Bool)
    (maxSizeMs tolerance overlap numFrames : Nat) (seg : Nat × Nat)
    (h : numFrames < seg.2) :
    ((processSeg overlap numFrames seg).sliceEnd = numFrames ∧
      (processSeg overlap numFrames seg).warned = true) ∧
      (processFileSegs vad maxSizeMs tolerance overlap numFrames).length =
        (getSegments vad maxSizeMs tolerance).length := by
  have hle : numFrames ≤ seg.2 := Nat.le_of_lt h
  refine ⟨⟨?_, ?_⟩, ?_⟩
  · simp [processSeg, hle]
  · simp [processSeg, hle]
  · simp [processFileSegs]

/-- Witness for c2_end_clamped_with_warning at overlap 0, 5 available frame
rows, the segment (2, 9) and a one-frame mask. -/
theorem c2_end_clamped_with_warning_witness :
    ((processSeg 0 5 (2, 9)).sliceEnd = 5 ∧ (processSeg 0 5 (2, 9)).warned = true) ∧
      (processFileSegs [true] 200 0 0 5).length = (getSegments [true] 200 0).length :=
  c2_end_clamped_with_warning [true] 200 0 0 5 (2, 9) (by decide)

/-- C1 counterexample: with a mask of 10 silence frames followed by 40
speech frames, max_size 200 ms, tolerance 0, overlap 250 ms and 50 feature
rows, the segmenter yields (10, 30) and (30, 50), and the loop pulls the
second segment's start back to frame 5, which lies before the previous
segment's original start frame 10: the code applies the pull-back even
though it overlaps the previous segment's original start, so the claimed
guard on the previous segment does not exist. -/
theorem c1_overlap_pullback_counterexample :
    getSegments (List.replicate 10 false ++ List.replicate 40 true) 200 0 =
        [(10, 30), (30, 50)] ∧
      (processFileSegs (List.replicate 10 false ++ List.replicate 40 true)
            200 0 250 50).map SegAdjust.sliceStart = [10, 5] ∧
      5 < 10 := by
  refine ⟨by decide, by decide, by decide⟩

/-- C1 amended: when overlap > 0, the loop pulls a segment's start back
exactly when the segment's original start time in milliseconds is at least
overlap — which is precisely what keeps the pulled-back start from moving
before time 0 — and the pulled-back start is the original start minus
ceil(overlap / 10) frames.  No condition involving the previous segment is
checked. -/
theorem c1_overlap_pullback (overlap numFrames s e : Nat) (hpos : 0 < overlap) :
    (overlap ≤ 10 * s →
      (processSeg overlap numFrames (s, e)).sliceStart = s - (overlap + 9) / 10) ∧
    (10 * s < overlap →
      (processSeg overlap numFrames (s, e)).sliceStart = s) := by
  constructor
  · intro h
    simp only [processSeg, getTimeFromFrames, getFramesFromTime, h, if_pos]
    omega
  · intro h
    have hnot : ¬ overlap ≤ 10 * s := by omega
    simp only [processSeg, getTimeFromFrames, getFramesFromTime, hnot, if_neg,
      not_false_iff, ite_false]

/-- Witness for c1_overlap_pullback at overlap 2500 ms and the segment
(300, 500): the start is pulled back from frame 300 to frame 50. -/
theorem c1_overlap_pullback_witness :
    (processSeg 2500 500 (300, 500)).sliceStart = 300 - (2500 + 9) / 10 :=
  (c1_overlap_pullback 2500 500 300 500 (by decide)).1 (by decide)

/-- A constant mask is a single run: run-length encoding of a nonempty
replicate is one run carrying the whole length. -/
theorem toRuns_replicate (b : Bool) (n : Nat) (h : n ≠ 0) :
    toRuns (List.replicate n b) = [(b, n)] := by
  induction n with
  | zero => exact absurd rfl h
  | succ m ih =>
    cases m with
    | zero => rfl
    | succ k =>
      have hk : k + 1 ≠ 0 := Nat.succ_ne_zero k
      rw [List.replicate_succ, toRuns, ih hk]
      simp

/-- C8 counterexample: on an all-speech mask of 3000 frames with
max_size 2000 ms (200 frames) and tolerance 0, the segmenter does not
return 2 segments: subdividing a 3000-frame run into chunks of at most 200
frames forces 15 of them. -/
theorem c8_scenario_counterexample :
    (getSegments (List.replicate 3000 true) 2000 0).length ≠ 2 := by
  have h : toRuns (List.replicate 3000 true) = [(true, 3000)] :=
    toRuns_replicate true 3000 (by decide)
  simp only [getSegments, h]
  decide

/-- C8 amended: on an all-speech mask of 3000 frames with max_size 2000 ms
(200 frames) and tolerance 0, the segmenter yields exactly 15 consecutive
segments of 200 frames each, with total frame coverage 3000 and no gap. -/
theorem c8_scenario_segments :
    getSegments (List.replicate 3000 true) 2000 0 =
      [(0, 200), (200, 400), (400, 600), (600, 800), (800, 1000),
       (1000, 1200), (1200, 1400), (1400, 1600), (1600, 1800), (1800, 2000),
       (2000, 2200), (2200, 2400), (2400, 2600), (2600, 2800), (2800, 3000)] := by
  have h : toRuns (List.replicate 3000 true) = [(true, 3000)] :=
    toRuns_replicate true 3000 (by decide)
  simp only [getSegments, h]
  decide

/-- Embeds _process_files (examples/diarization.py lines 36-49) with a
fallible per-file function.  The source is a plain loop
  for fn in fns: ret.append(process_file(fn, **kwargs))
with no try/except, so an exception raised by process_file propagates
immediately: Except models that control flow. -/
def processFilesExc {α β ε : Type} (f : α → Except ε β) : List α → Except ε (List β)
  | [] => Except.ok []
  | fn :: rest =>
    match f fn with
    | Except.error e => Except.error e
    | Except.ok r =>
      match processFilesExc f rest with
      | Except.error e => Except.error e
      | Except.ok rs => Except.ok (r :: rs)

/-- A per-file worker that fails on file 1 and succeeds on every other
file: a concrete instantiation for exercising the batch loop. -/
def failOn1 (n : Nat) : Except String Nat :=
  if n = 1 then Except.error "boom" else Except.ok n

/-- C3 counterexample: in the batch [0, 1, 2], file 1 raises while files 0
and 2 would succeed, yet the batch result is the bare error: no result for
file 0 or file 2 is produced, so the failure of one file does abort the
whole batch, contrary to the claim. -/
theorem c3_batch_aborts_counterexample :
    processFilesExc failOn1 [0, 1, 2] = Except.error "boom" ∧
      failOn1 0 = Except.ok 0 ∧ failOn1 2 = Except.ok 2 :=
  ⟨rfl, rfl, rfl⟩

/-- C3 amended: an exception raised while processing one file is not caught
anywhere in _process_files / process_files: the first failing file's error
becomes the result of the whole batch, the results of the files before it
are discarded and the files after it are never processed. -/
theorem c3_batch_aborts_on_failure {α β ε : Type} (f : α → Except ε β)
    (pre : List α) (fn : α) (rest : List α) (e : ε)
    (hpre : ∀ y ∈ pre, ∃ b, f y = Except.ok b)
    (hfn : f fn = Except.error e) :
    processFilesExc f (pre ++ fn :: rest) = Except.error e := by
  induction pre with
  | nil => simp [processFilesExc, hfn]
  | cons y ys ih =>
    obtain ⟨b, hb⟩ := hpre y (List.mem_cons_self y ys)
    have ihh := ih (fun z hz => hpre z (List.mem_cons_of_mem y hz))
    simp only [List.cons_append, processFilesExc, hb]
    rw [List.append_eq, ihh]

/-- Witness for c3_batch_aborts_on_failure on the batch [0] ++ 1 :: [2]
with the concrete worker failOn1. -/
theorem c3_batch_aborts_on_failure_witness :
    processFilesExc failOn1 ([0] ++ 1 :: [2]) = Except.error "boom" :=
  c3_batch_aborts_on_failure failOn1 [0] 1 [2] "boom"
    (by intro y hy; simp only [List.mem_singleton] at hy; subst hy; exact ⟨0, rfl⟩)
    rfl

/-- Fuel-driven contiguous chunking: chunks of k + 1 elements, in order,
the last chunk possibly shorter.  The fuel argument only bounds the
recursion; partitionList supplies enough. -/
def chunkAux {α : Type} (k : Nat) : Nat → List α → List (List α)
  | _, [] => []
  | 0, l => [l]
  | fuel + 1, x :: xs => (x :: xs.take k) :: chunkAux k fuel (xs.drop k)

/-- Modelled from the spec: vbdiar.utils.utils.Utils.partition is not in
the available sources.  Per the concurrency model, the recording list is
partitioned into contiguous chunks, one chunk per worker: chunks of size
the ceiling of length / n, in input order. -/
def partitionList {α : Type} (l : List α) (n : Nat) : List (List α) :=
  chunkAux ((l.length + n - 1) / n - 1) l.length l

/-- An EmbeddingSet as the result comprehension of process_files sees it:
the class itself is not in the available sources; per the spec it owns an
ordered collection of embeddings, here abstracted to their indices. -/
structure EmbSet where
  embs : List Nat
  deriving DecidableEq, Repr

/-- Python iteration over one EmbeddingSet, as the spec describes the
type: an ordered collection of embeddings, iteration yields them. -/
def iterEmbSet (s : EmbSet) : List Nat := s.embs

/-- Embeds process_files (examples/diarization.py lines 52-82).  The
source computes ret in two branches and ends with one shared flatten:
  if n_jobs == 1:
      ret = _process_files((fns, kwargs))
  else:
      pool = multiprocessing.Pool(n_jobs)
      ret = pool.map(_process_files, ((part, kwargs) for part in Utils.partition(fns, n_jobs)))
  return [item for sublist in ret for item in sublist]
_process_files returns a flat list with one EmbeddingSet per file, so ret
holds EmbeddingSets on the sequential branch but chunk lists of
EmbeddingSets on the pool branch, and the shared comprehension iterates
elements of different types: on the pool branch each sublist is a chunk
list, on the sequential branch each sublist is an EmbeddingSet itself,
iterated via the parameter iterES (were EmbeddingSet not iterable, the
sequential branch would raise TypeError there instead).  The sum type
records the two distinct result types of the branches. -/
def processFilesRet {α β γ : Type} (iterES : β → List γ) (f : α → β)
    (fns : List α) (nJobs : Nat) : List γ ⊕ List β :=
  if nJobs = 1 then Sum.inl ((fns.map f).map iterES).flatten
  else Sum.inr ((partitionList fns nJobs).map (fun part => part.map f)).flatten

/-- Flattening the contiguous chunks gives back the original list,
whatever the fuel. -/
theorem chunkAux_flatten {α : Type} (k : Nat) :
    ∀ (fuel : Nat) (l : List α), (chunkAux k fuel l).flatten = l := by
  intro fuel
  induction fuel with
  | zero => intro l; cases l <;> simp [chunkAux]
  | succ m ih =>
    intro l
    cases l with
    | nil => simp [chunkAux]
    | cons x xs =>
      simp only [chunkAux, List.flatten_cons, ih, List.cons_append]
      rw [List.take_append_drop]

/-- On the pool branch (n_jobs different from 1) process_files does
return one EmbeddingSet per input file, in input-list order: there the
shared flatten matches the chunked shape of ret. -/
theorem processFilesRet_pool {α β γ : Type} (iterES : β → List γ) (f : α → β)
    (fns : List α) (n : Nat) (hn : n ≠ 1) :
    processFilesRet iterES f fns n = Sum.inr (fns.map f) := by
  simp only [processFilesRet, hn, if_false]
  rw [← List.map_flatten, partitionList, chunkAux_flatten]

/-- A concrete per-file worker producing an EmbeddingSet of two
embeddings per recording, for exercising process_files at the failing
input. -/
def demoWorker (fn : String) : EmbSet :=
  if fn = "a" then ⟨[10, 11]⟩ else ⟨[20, 21]⟩

/-- C5: evaluation at the failing input n_jobs = 1 with files a and b.
The shared flatten of process_files (line 82) flattens the already-flat
_process_files result, so the sequential branch returns the four
embedding items of the two EmbeddingSets — not one EmbeddingSet per input
file — while the pool branch (here n_jobs = 2) returns exactly one
EmbeddingSet per input file in order; the claimed equality of the two
paths fails in the code, whose branches do not even share a result type. -/
theorem c5_sequential_branch_double_flattens :
    processFilesRet iterEmbSet demoWorker ["a", "b"] 1 =
        Sum.inl [10, 11, 20, 21] ∧
      processFilesRet iterEmbSet demoWorker ["a", "b"] 2 =
        Sum.inr (["a", "b"].map demoWorker) ∧
      [10, 11, 20, 21].length ≠ (["a", "b"].map demoWorker).length := by
  refine ⟨by decide, by decide, by decide⟩

/-- The optional directory arguments of the extraction script that drive
its configuration checks (examples/diarization.py lines 187-201). -/
structure MainArgs where
  inEmbDir : Option String
  outEmbDir : Option String
  audioDir : Option String
  vadDir : Option String

/-- Embeds the configuration-checking prefix of the __main__ block of
examples/diarization.py (lines 230-273): after reading the configuration,
a missing MFCC config path raises ValueError (line 234); then, when no
input embedding directory is given, a missing output embedding directory,
audio directory or vad directory each raise ValueError (lines 257-263)
before process_files is called.  The ok value is the list of recordings
handed to per-recording processing: errors short-circuit before any of it
starts, and a given input embedding directory skips extraction. -/
def mainExtractPhase (mfccConfigPathExists : Bool) (args : MainArgs)
    (files : List String) : Except String (List String) :=
  if mfccConfigPathExists = false then
    Except.error "Path to MFCC configuration not found."
  else
    match args.inEmbDir with
    | some _ => Except.ok []
    | none =>
      match args.outEmbDir with
      | none => Except.error "At least one of in-emb-dir or out-emb-dir must be specified."
      | some _ =>
        match args.audioDir with
        | none => Except.error "At least one of in-emb-dir or audio-dir must be specified."
        | some _ =>
          match args.vadDir with
          | none => Except.error "audio-dir was specified, vad-dir must be specified too."
          | some _ => Except.ok files

/-- C4: a missing MFCC config path, or neither an input nor an output
embedding directory, makes the script fail with a fatal configuration
error; the error return short-circuits before any per-recording processing
(the ok branch is the only one that hands files to process_files). -/
theorem c4_config_errors_are_fatal (mfccConfigPathExists : Bool) (args : MainArgs)
    (files : List String)
    (h : mfccConfigPathExists = false ∨ (args.inEmbDir = none ∧ args.outEmbDir = none)) :
    ∃ e, mainExtractPhase mfccConfigPathExists args files = Except.error e := by
  rcases h with hmfcc | ⟨hin, hout⟩
  · exact ⟨"Path to MFCC configuration not found.", by simp [mainExtractPhase, hmfcc]⟩
  · cases hmfcc : mfccConfigPathExists with
    | false =>
      exact ⟨"Path to MFCC configuration not found.", by simp [mainExtractPhase]⟩
    | true =>
      exact ⟨"At least one of in-emb-dir or out-emb-dir must be specified.",
        by simp [mainExtractPhase, hin, hout]⟩

/-- Witness for c4_config_errors_are_fatal: MFCC config present but
neither embedding directory given. -/
theorem c4_config_errors_are_fatal_witness :
    ∃ e, mainExtractPhase true ⟨none, none, some "a", some "v"⟩ ["f1"] = Except.error e :=
  c4_config_errors_are_fatal true ⟨none, none, some "a", some "v"⟩ ["f1"]
    (Or.inr ⟨rfl, rfl⟩)

/-- Tokenizer over a character list mirroring Python str.split() with no
argument: splits on runs of spaces and tabs and drops empty tokens.  The
first argument is the remaining input, the second the current token read
so far, in reverse. -/
def splitWSAux : List Char → List Char → List String
  | [], cur => if cur = [] then [] else [String.mk cur.reverse]
  | c :: cs, cur =>
    if c = ' ' ∨ c = '\t' then
      (if cur = [] then [] else [String.mk cur.reverse]) ++ splitWSAux cs []
    else splitWSAux cs (c :: cur)

/-- Whitespace tokenization of an input-list line, as file_name.split()
does in process_file. -/
def splitWS (s : String) : List String := splitWSAux s.data []

/-- Digit-accumulating parser: some value when every character is a
decimal digit, none otherwise. -/
def natOfDigitsAux : List Char → Nat → Option Nat
  | [], acc => some acc
  | c :: cs, acc =>
    if c.isDigit then natOfDigitsAux cs (acc * 10 + (c.toNat - '0'.toNat)) else none

/-- The integer value of a token, as Python int() computes it on a plain
optionally-signed decimal literal; none where int() would raise. -/
def intOfToken (s : String) : Option Int :=
  match s.data with
  | [] => none
  | '-' :: cs =>
    match cs with
    | [] => none
    | _ => (natOfDigitsAux cs 0).map (fun n => -(n : Int))
  | cs => (natOfDigitsAux cs 0).map (fun n => (n : Int))

/-- The metadata process_file stores on the EmbeddingSet it returns
(examples/diarization.py lines 135-136): the recording name and the
optional expected-speaker-count hint. -/
structure EmbeddingSetMeta where
  name : String
  numSpeakers : Option Int
  deriving DecidableEq, Repr

/-- Embeds the input-line parsing of process_file
(examples/diarization.py lines 106-109, 135-136):
  num_speakers = None
  if len(file_name.split()) > 1:
      file_name, num_speakers = file_name.split()[0], int(file_name.split()[1])
and later embedding_set.name = file_name;
embedding_set.num_speakers = num_speakers.  No validation is applied to
the parsed integer.  Where int() would raise on a malformed token this
model records none. -/
def parseInputLine (line : String) : EmbeddingSetMeta :=
  let toks := splitWS line
  if 1 < toks.length then
    { name := toks.headD line, numSpeakers := intOfToken (toks.getD 1 "") }
  else
    { name := line, numSpeakers := none }

/-- C7 counterexample: the input line with recording name rec and second
token 0 produces the hint 0, which is an integer smaller than 1: the code
parses the token with int() and never enforces the claimed lower bound of
1. -/
theorem c7_hint_counterexample :
    parseInputLine "rec 0" = ⟨"rec", some 0⟩ ∧ ¬ (1 ≤ (0 : Int)) := by
  constructor
  · decide
  · decide

/-- C7 amended: the EmbeddingSet metadata carries as name the first
whitespace-separated token when the line has at least two tokens (the full
line otherwise), and as hint none when there is no second token and
otherwise the integer parsed from the second token, with no lower-bound
validation. -/
theorem c7_line_metadata (line : String) :
    ((splitWS line).length ≤ 1 → parseInputLine line = ⟨line, none⟩) ∧
      (∀ t0 t1 rest, splitWS line = t0 :: t1 :: rest →
        parseInputLine line = ⟨t0, intOfToken t1⟩) := by
  constructor
  · intro h
    have hnot : ¬ 1 < (splitWS line).length := by omega
    simp [parseInputLine, hnot]
  · intro t0 t1 rest heq
    have hlen : 1 < (splitWS line).length := by rw [heq]; simp
    simp [parseInputLine, heq, hlen]

/-- Witness for c7_line_metadata on the two-token line rec 2. -/
theorem c7_line_metadata_witness :
    parseInputLine "rec 2" = ⟨"rec", intOfToken "2"⟩ :=
  (c7_line_metadata "rec 2").2 "rec" "2" [] (by decide)

/-- Appends a copy of the last row to a matrix given as a list of rows:
np.append(m, [m[-1]], axis=0).  On the empty matrix (where m[-1] would
raise an IndexError) the matrix is returned unchanged. -/
def appendLastRow {α : Type} (m : List α) : List α :=
  match m.getLast? with
  | some r => m ++ [r]
  | none => m

/-- Embeds PythonMFCCFeatureExtraction.audio2features
(vbdiar/kaldi/python_mfcc_features_extraction.py lines 13-20).  The
external collaborators enter through their numeric interface: the raw
python_speech_features mfcc computation enters as the row list mfccFeat,
and speechpy.processing.cmvnw enters as the parameter cmvnw.  The source
appends the final MFCC frame twice and then applies sliding-window CMVN:
  mfcc_feat = np.append(mfcc_feat, [mfcc_feat[-1]], axis=0)
  mfcc_feat = np.append(mfcc_feat, [mfcc_feat[-1]], axis=0)
  mfcc_cmvn = speechpy.processing.cmvnw(mfcc_feat, ...). -/
def audio2features {α : Type} (cmvnw : List α → List α) (mfccFeat : List α) : List α :=
  cmvnw (appendLastRow (appendLastRow mfccFeat))

/-- C9: for a nonempty raw MFCC matrix and a row-count-preserving CMVN
(speechpy's cmvnw returns a matrix of the input's shape), audio2features
returns exactly two more rows than the raw MFCC computation, and the
matrix fed to CMVN is the raw matrix with its final row replicated twice. -/
theorem c9_two_replicated_rows {α : Type} (cmvnw : List α → List α)
    (hc : ∀ m : List α, (cmvnw m).length = m.length)
    (mfccFeat : List α) (r : α) (hr : mfccFeat.getLast? = some r) :
    audio2features cmvnw mfccFeat = cmvnw (mfccFeat ++ [r, r]) ∧
      (audio2features cmvnw mfccFeat).length = mfccFeat.length + 2 := by
  have h1 : appendLastRow mfccFeat = mfccFeat ++ [r] := by
    simp [appendLastRow, hr]
  have h2 : appendLastRow (mfccFeat ++ [r]) = mfccFeat ++ [r, r] := by
    simp [appendLastRow, List.getLast?_concat]
  constructor
  · simp [audio2features, h1, h2]
  · simp [audio2features, h1, h2, hc]

/-- Witness for c9_two_replicated_rows with the identity CMVN and a
one-row matrix. -/
theorem c9_two_replicated_rows_witness :
    audio2features (fun m : List Nat => m) [5] = (fun m : List Nat => m) ([5] ++ [5, 5]) ∧
      (audio2features (fun m : List Nat => m) [5]).length = [5].length + 2 :=
  c9_two_replicated_rows (fun m => m) (fun _ => rfl) [5] 5 rfl

end VBDiar
